import Mathlib

/-
Verification of the RaptorQHAB core against its specification.

Shallow embedding of:
  - src/common/crc.py               (CRC-32, IEEE 802.3 polynomial)
  - src/common/protocol.py          (frame build / parse)
  - src/Pi/common/constants.py      (protocol constants)
  - src/Pi/ground/decoder.py        (ground image reconstruction engine)
  - src/airborne/packets.py         (payload packet scheduler)
  - src/Pi/airborne/fountain.py     (LT encoder seed selection)

Bytes are modelled as `List Nat` (each entry a byte value).  The external
raptorq library decoder is modelled as an oracle `Lib`: a pure function from
the sequence of packets fed so far to the optional decoded blob; the engine's
behaviour is proved for arbitrary oracles and refuted with concrete ones.
Wall-clock time is modelled as a `Nat` logical clock passed to each operation.
-/

set_option maxRecDepth 8000

namespace RaptorHAB

/-! ## CRC-32 (src/common/crc.py) -/

def CRC32_POLYNOMIAL : Nat := 0xEDB88320

/-- One iteration of the table-generation inner loop in `_init_crc32_table`. -/
def crcStep (crc : Nat) : Nat :=
  if crc % 2 = 1 then (crc / 2) ^^^ CRC32_POLYNOMIAL else crc / 2

/-- Entry `i` of the lookup table built by `_init_crc32_table` (8 iterations). -/
def crcTableEntry (i : Nat) : Nat := crcStep^[8] i

/-- One step of the `crc32` accumulation loop:
`crc = table[(crc ^ byte) & 0xFF] ^ (crc >> 8)`. -/
def crc32_update (crc b : Nat) : Nat :=
  crcTableEntry ((crc ^^^ b) &&& 255) ^^^ (crc >>> 8)

/-- `crc32(data)` with the default initial value `0xFFFFFFFF`. -/
def crc32 (data : List Nat) : Nat :=
  (data.foldl crc32_update 0xFFFFFFFF) ^^^ 0xFFFFFFFF

/-- `struct.pack('>I', v)`: 4 big-endian bytes. -/
def be32 (v : Nat) : List Nat :=
  [v / 16777216 % 256, v / 65536 % 256, v / 256 % 256, v % 256]

/-- `struct.unpack('>I', ...)` / big-endian `int.from_bytes`. -/
def fromBe (l : List Nat) : Nat := l.foldl (fun a b => a * 256 + b) 0

/-- `crc32_bytes(data)`: the CRC as 4 big-endian bytes. -/
def crc32_bytes (data : List Nat) : List Nat := be32 (crc32 data)

/-- `verify_crc32_packet(packet)`: compare the CRC of the packet body with the
trailing 4 bytes. -/
def verify_crc32_packet (packet : List Nat) : Bool :=
  if packet.length < 4 then false
  else crc32 (packet.take (packet.length - 4))
         = fromBe (packet.drop (packet.length - 4))

/-! ## Protocol constants (src/Pi/common/constants.py) -/

def SYNC_WORD : List Nat := [0x52, 0x41, 0x50, 0x54]
def HEADER_SIZE : Nat := 8
def CRC_SIZE : Nat := 4
def MAX_PAYLOAD_SIZE : Nat := 243
def TELEMETRY_PAYLOAD_SIZE : Nat := 36
def FOUNTAIN_SYMBOL_SIZE : Nat := 200

/-- The `PacketType` enumeration. -/
inductive PacketType where
  | TELEMETRY
  | IMAGE_META
  | IMAGE_DATA
  | TEXT_MSG
  | CMD_ACK
  | CMD_PING
  | CMD_SETPARAM
  | CMD_CAPTURE
  | CMD_REBOOT
deriving DecidableEq, Repr

def PacketType.toByte : PacketType → Nat
  | .TELEMETRY => 0x00
  | .IMAGE_META => 0x01
  | .IMAGE_DATA => 0x02
  | .TEXT_MSG => 0x03
  | .CMD_ACK => 0x10
  | .CMD_PING => 0x80
  | .CMD_SETPARAM => 0x81
  | .CMD_CAPTURE => 0x82
  | .CMD_REBOOT => 0x83

/-- `PacketType(byte)`: raises `ValueError` (modelled as `none`) on any byte
outside the enumeration. -/
def PacketType.ofByte (b : Nat) : Option PacketType :=
  if b = 0x00 then some .TELEMETRY
  else if b = 0x01 then some .IMAGE_META
  else if b = 0x02 then some .IMAGE_DATA
  else if b = 0x03 then some .TEXT_MSG
  else if b = 0x10 then some .CMD_ACK
  else if b = 0x80 then some .CMD_PING
  else if b = 0x81 then some .CMD_SETPARAM
  else if b = 0x82 then some .CMD_CAPTURE
  else if b = 0x83 then some .CMD_REBOOT
  else none

/-! ## Frame codec (src/common/protocol.py) -/

/-- `build_packet`: sync word, `'>BHB'` header (type, big-endian sequence,
flags), payload, trailing CRC-32.  `none` models the `ValueError` on an
over-large payload and the `struct.error` on an out-of-range sequence or
flags value. -/
def build_packet (packet_type : PacketType) (sequence : Nat)
    (payload : List Nat) (flags : Nat) : Option (List Nat) :=
  if MAX_PAYLOAD_SIZE < payload.length then none
  else if 65536 ≤ sequence ∨ 256 ≤ flags then none
  else
    let header := [packet_type.toByte, sequence / 256 % 256, sequence % 256, flags]
    let packet := SYNC_WORD ++ header ++ payload
    some (packet ++ crc32_bytes packet)

/-- `_get_expected_payload_length(packet_type, data)`. -/
def expectedPayloadLength : PacketType → Option Nat
  | .TELEMETRY => some TELEMETRY_PAYLOAD_SIZE
  | .IMAGE_META => some 22
  | .IMAGE_DATA => some (2 + 4 + FOUNTAIN_SYMBOL_SIZE)
  | .TEXT_MSG => none
  | .CMD_ACK => some 4
  | _ => none

/-- The `expected_total` computation in `parse_packet`.  When
`_get_expected_payload_length` returns `None` the source falls back to
`expected_payload_len = len(data) - HEADER - CRC` (exact int arithmetic), so
`expected_total = HEADER + that + CRC = len(data)`; the fallback case is
therefore written directly as `data.length`. -/
def expectedTotal (packet_type : PacketType) (data : List Nat) : Nat :=
  match expectedPayloadLength packet_type with
  | some n => HEADER_SIZE + n + CRC_SIZE
  | none => data.length

/-- The body of `parse_packet` once the header has been recognized: length
determination (`sequence` from bytes 5-6, `flags` from byte 7), CRC
verification at the expected position with the full-buffer fallback, and
payload extraction (`actual_packet[HEADER_SIZE:-CRC_SIZE]`). -/
def parsePacketTyped (packet_type : PacketType) (data : List Nat) :
    Option (PacketType × Nat × Nat × List Nat) :=
  if data.length < expectedTotal packet_type data then none
  else if verify_crc32_packet (data.take (expectedTotal packet_type data)) then
    some (packet_type, data.getD 5 0 * 256 + data.getD 6 0, data.getD 7 0,
          ((data.take (expectedTotal packet_type data)).take
            ((data.take (expectedTotal packet_type data)).length - CRC_SIZE)).drop
            HEADER_SIZE)
  else if HEADER_SIZE + CRC_SIZE ≤ data.length then
    if verify_crc32_packet data then
      some (packet_type, data.getD 5 0 * 256 + data.getD 6 0, data.getD 7 0,
            (data.take (data.length - CRC_SIZE)).drop HEADER_SIZE)
    else none
  else none

/-- `parse_packet(data)`. -/
def parse_packet (data : List Nat) :
    Option (PacketType × Nat × Nat × List Nat) :=
  if data.length < HEADER_SIZE then none
  else if data.take 4 ≠ SYNC_WORD then none
  else
    match PacketType.ofByte (data.getD 4 0) with
    | none => none
    | some packet_type => parsePacketTyped packet_type data

/-! ## Packet scheduler (src/airborne/packets.py)

`next_packet` is modelled at the level of the frame it emits: each emitted
frame is classified by its packet type (plus the image/symbol ids for the
image frames).  `_build_and_advance` wraps `build_packet`, which always
succeeds on the scheduler's own payloads, so only the frame descriptor is
tracked.  The fountain encoder behind an `ImageTransmission` assigns symbol
ids contiguously from 0 (`generate_symbol`), which is modelled by the
`next_symbol_id` counter. -/

/-- The scheduler-relevant state of `ImageTransmission` (the blob, dimensions
and checksum only flow into payload contents). -/
structure ImageTransmission where
  image_id : Nat
  total_symbols : Nat
  symbols_sent : Nat
  next_symbol_id : Nat
deriving DecidableEq, Repr

/-- `ImageTransmission.is_complete`. -/
def ImageTransmission.is_complete (img : ImageTransmission) : Bool :=
  img.total_symbols ≤ img.symbols_sent

/-- Descriptor of one emitted frame. -/
inductive Frame where
  | telemetry
  | imageMeta (image_id : Nat)
  | imageData (image_id symbol_id : Nat)
  | priority (packet_type : PacketType)
deriving DecidableEq, Repr

/-- An entry of the scheduler's priority queue (`QueuedPacket`). -/
structure QueuedPacket where
  packet_type : PacketType
  priority : Nat
  created_at : Nat
deriving DecidableEq, Repr

/-- `QueuedPacket.__lt__`: higher priority first, then older packets. -/
def QueuedPacket.lt (a b : QueuedPacket) : Bool :=
  if a.priority ≠ b.priority then decide (b.priority < a.priority)
  else decide (a.created_at < b.created_at)

/-- Stable insertion used to model Python's stable `list.sort()`. -/
def insertSorted (x : QueuedPacket) : List QueuedPacket → List QueuedPacket
  | [] => [x]
  | y :: ys => if QueuedPacket.lt x y then x :: y :: ys else y :: insertSorted x ys

def sortQueue (l : List QueuedPacket) : List QueuedPacket :=
  l.foldr insertSorted []

structure SchedState where
  telemetry_interval : Nat
  image_meta_interval : Nat
  sequence : Nat
  packet_counter : Nat
  current_image : Option ImageTransmission
  image_queue : List ImageTransmission
  priority_queue : List QueuedPacket
deriving DecidableEq, Repr

/-- The state of a freshly constructed `PacketScheduler`. -/
def SchedState.init (telemetry_interval image_meta_interval : Nat) : SchedState :=
  ⟨telemetry_interval, image_meta_interval, 0, 0, none, [], []⟩

def advanceSeq (s : SchedState) : SchedState :=
  { s with sequence := (s.sequence + 1) % 65536 }

/-- `queue_image`: the queue is bounded at 5; `put_nowait` on a full queue
raises, is caught, and the image is dropped (`False`). -/
def SchedState.queue_image (s : SchedState) (image_id total_symbols : Nat) :
    SchedState × Bool :=
  if s.image_queue.length < 5 then
    ({ s with image_queue := s.image_queue ++ [⟨image_id, total_symbols, 0, 0⟩] },
     true)
  else (s, false)

/-- `queue_packet`: append then stable-sort by `__lt__`. -/
def SchedState.queue_packet (s : SchedState) (q : QueuedPacket) : SchedState :=
  { s with priority_queue := sortQueue (s.priority_queue ++ [q]) }

/-- `_get_image_meta_packet_for_current`. -/
def metaForCurrent (s : SchedState) : SchedState × Option Frame :=
  match s.current_image with
  | none => (s, none)
  | some img => (advanceSeq s, some (.imageMeta img.image_id))

/-- `_get_image_meta_packet`. -/
def getImageMetaPacket (s : SchedState) : SchedState × Option Frame :=
  match s.current_image with
  | none =>
    match s.image_queue with
    | [] => (s, none)
    | img :: rest =>
      metaForCurrent { s with current_image := some img, image_queue := rest }
  | some _ => metaForCurrent s

/-- `_get_image_data_packet`. -/
def getImageDataPacket (s : SchedState) : SchedState × Option Frame :=
  match s.current_image with
  | none =>
    match s.image_queue with
    | [] => (s, none)
    | img :: rest =>
      metaForCurrent { s with current_image := some img, image_queue := rest }
  | some img =>
    if img.is_complete then ({ s with current_image := none }, none)
    else
      let symbol_id := img.next_symbol_id
      let img' := { img with symbols_sent := img.symbols_sent + 1,
                             next_symbol_id := img.next_symbol_id + 1 }
      (advanceSeq { s with current_image := some img' },
       some (.imageData img.image_id symbol_id))

/-- `_get_telemetry_packet`: always yields a telemetry frame (the source falls
back to an empty `TelemetryPayload` on any failure). -/
def getTelemetryPacket (s : SchedState) : SchedState × Frame :=
  (advanceSeq s, .telemetry)

/-- The tail of `get_next_packet`: try `_get_image_data_packet`, fall back to
telemetry. -/
def dataOrTelemetry (s : SchedState) : SchedState × Frame :=
  match getImageDataPacket s with
  | (s', some f) => (s', f)
  | (s', none) => getTelemetryPacket s'

/-- The IMAGE_META slot of `get_next_packet`: try `_get_image_meta_packet`,
fall through to image data, then telemetry. -/
def metaOrData (s : SchedState) : SchedState × Frame :=
  match getImageMetaPacket s with
  | (s', some f) => (s', f)
  | (s', none) => dataOrTelemetry s'

/-- `get_next_packet`. -/
def get_next_packet (s : SchedState) : SchedState × Frame :=
  match s.priority_queue with
  | q :: rest =>
    (advanceSeq { s with priority_queue := rest }, .priority q.packet_type)
  | [] =>
    let s := { s with packet_counter := s.packet_counter + 1 }
    if s.packet_counter % s.telemetry_interval = 0 then getTelemetryPacket s
    else if s.packet_counter % s.image_meta_interval = 0 then metaOrData s
    else dataOrTelemetry s

/-- One scheduler operation of the public API exercised by the payload. -/
inductive SchedOp where
  | next
  | queueImage (image_id total_symbols : Nat)
  | queueText (priority created : Nat)
  | queueAck (created : Nat)
deriving DecidableEq, Repr

/-- Apply one operation; `next` emits a frame, the queueing operations do not.
`queueText` mirrors `queue_text_message`, `queueAck` mirrors
`queue_command_ack` (priority `HIGH = 2`). -/
def schedStep (s : SchedState) : SchedOp → SchedState × Option Frame
  | .next => let (s', f) := get_next_packet s; (s', some f)
  | .queueImage i t => ((s.queue_image i t).1, none)
  | .queueText p c => (s.queue_packet ⟨.TEXT_MSG, p, c⟩, none)
  | .queueAck c => (s.queue_packet ⟨.CMD_ACK, 2, c⟩, none)

/-- The trace of frames emitted by a sequence of operations. -/
def runSched (s : SchedState) : List SchedOp → List Frame
  | [] => []
  | op :: ops =>
    match schedStep s op with
    | (s', some f) => f :: runSched s' ops
    | (s', none) => runSched s' ops

def Frame.isTelemetry : Frame → Bool
  | .telemetry => true
  | _ => false

def Frame.isMeta : Frame → Bool
  | .imageMeta _ => true
  | _ => false

def Frame.isData : Frame → Bool
  | .imageData _ _ => true
  | _ => false

/-- Counts of (TELEMETRY, IMAGE_META, IMAGE_DATA) frames over `n` consecutive
`next_packet` calls starting from `s`. -/
def schedRunCounts (s : SchedState) : Nat → Nat × Nat × Nat
  | 0 => (0, 0, 0)
  | n + 1 =>
    let p := get_next_packet s
    let c := schedRunCounts p.1 n
    (c.1 + (if p.2.isTelemetry then 1 else 0),
     c.2.1 + (if p.2.isMeta then 1 else 0),
     c.2.2 + (if p.2.isData then 1 else 0))

/-! ## Ground image reconstruction engine (src/Pi/ground/decoder.py)

Python `dict`s (insertion-ordered, unique keys) are modelled as association
lists: an update of an existing key replaces in place, a new key is appended,
so iteration order matches Python's. -/

def dictGet {α : Type} : List (Nat × α) → Nat → Option α
  | [], _ => none
  | (k', v) :: rest, k => if k' = k then some v else dictGet rest k

def dictMem {α : Type} (d : List (Nat × α)) (k : Nat) : Bool :=
  (dictGet d k).isSome

def dictSet {α : Type} : List (Nat × α) → Nat → α → List (Nat × α)
  | [], k, v => [(k, v)]
  | (k', v') :: rest, k, v =>
    if k' = k then (k', v) :: rest else (k', v') :: dictSet rest k v

def dictDel {α : Type} : List (Nat × α) → Nat → List (Nat × α)
  | [], _ => []
  | (k', v') :: rest, k => if k' = k then rest else (k', v') :: dictDel rest k

/-- `ImageStatus`. -/
inductive ImageStatus where
  | RECEIVING
  | COMPLETE
  | FAILED
  | TIMEOUT
deriving DecidableEq, Repr

/-- `ImageMetadata` (timestamps are logical clock values). -/
structure ImageMetadata where
  image_id : Nat
  total_size : Nat
  symbol_size : Nat
  num_source_symbols : Nat
  checksum : Nat
  width : Nat
  height : Nat
  timestamp : Nat
  first_received : Nat
  last_received : Nat
deriving DecidableEq, Repr

/-- `ImageReconstruction`. -/
structure ImageReconstruction where
  metadata : ImageMetadata
  status : ImageStatus
  received_symbols : List (Nat × List Nat)
  decoded_data : Option (List Nat)
deriving DecidableEq, Repr

def ImageReconstruction.mk0 (metadata : ImageMetadata) : ImageReconstruction :=
  ⟨metadata, .RECEIVING, [], none⟩

/-- Oracle for the external `raptorq` library decoder: the optional decoded
blob as a pure function of the sequence of packets fed so far. -/
def Lib : Type := List (List Nat) → Option (List Nat)

/-- `RaptorQDecoder` wrapper state; `fed` is the sequence of packets passed to
the library decoder's `decode`. -/
structure RaptorQDecoder where
  num_source_symbols : Nat
  symbol_size : Nat
  total_size : Nat
  symbols : List (Nat × List Nat)
  decoded_data : Option (List Nat)
  fed : List (List Nat)
deriving DecidableEq, Repr

def RaptorQDecoder.init (num_source_symbols symbol_size total_size : Nat) :
    RaptorQDecoder :=
  ⟨num_source_symbols, symbol_size, total_size, [], none, []⟩

/-- `RaptorQDecoder.add_symbol`: returns the updated decoder and the
completion flag.  A library exception is modelled by the oracle returning
`none` (the source catches it and returns `False`). -/
def RaptorQDecoder.add_symbol (lib : Lib) (d : RaptorQDecoder)
    (symbol_id : Nat) (symbol_data : List Nat) : RaptorQDecoder × Bool :=
  if d.decoded_data.isSome then (d, true)
  else if dictMem d.symbols symbol_id then (d, false)
  else
    let d' := { d with symbols := dictSet d.symbols symbol_id symbol_data,
                       fed := d.fed ++ [symbol_data] }
    match lib d'.fed with
    | some r => ({ d' with decoded_data := some r }, true)
    | none => (d', false)

/-- `RaptorQDecoder.get_decoded_data`: decoded data trimmed to
`total_size`. -/
def RaptorQDecoder.get_decoded_data (d : RaptorQDecoder) : Option (List Nat) :=
  d.decoded_data.map (fun b => b.take d.total_size)

/-- The `FountainDecoder` engine state.  `callbacks` records the invocations
of `on_image_complete` and `removals` the `(image_id, status)` of each
`_remove_image` call on a live reconstruction, so that classification is
observable. -/
structure EngineState where
  symbol_size : Nat
  max_pending : Nat
  timeout_sec : Nat
  images : List (Nat × ImageReconstruction)
  decoders : List (Nat × RaptorQDecoder)
  completed : List (Nat × ImageReconstruction)
  max_completed : Nat
  images_completed : Nat
  images_failed : Nat
  symbols_received : Nat
  symbols_duplicate : Nat
  callbacks : List (Nat × List Nat × ImageMetadata)
  removals : List (Nat × ImageStatus)
deriving DecidableEq, Repr

/-- `FountainDecoder.__init__` (`_max_completed = 100`). -/
def EngineState.init (symbol_size max_pending timeout_sec : Nat) : EngineState :=
  ⟨symbol_size, max_pending, timeout_sec, [], [], [], 100, 0, 0, 0, 0, [], []⟩

/-- `_remove_image`. -/
def removeImage (s : EngineState) (image_id : Nat) (status : ImageStatus) :
    EngineState :=
  let s :=
    if dictMem s.images image_id then
      { s with images := dictDel s.images image_id,
               removals := s.removals ++ [(image_id, status)] }
    else s
  { s with decoders := dictDel s.decoders image_id }

/-- `_cleanup_timeout`: evict every reconstruction whose `last_received` is
older than `timeout_sec`, counting each as failed. -/
def cleanupTimeout (now : Nat) (s : EngineState) : EngineState :=
  let to_remove :=
    (s.images.filter
      (fun p => s.timeout_sec < now - p.2.metadata.last_received)).map Prod.fst
  let s := to_remove.foldl (fun st i => removeImage st i ImageStatus.TIMEOUT) s
  { s with images_failed := s.images_failed + to_remove.length }

/-- `min(self._images.keys(), key=lambda x: ...first_received)`: the leftmost
entry with minimal `first_received` (Python's `min` keeps the first). -/
def oldestEntry : List (Nat × ImageReconstruction) →
    Option (Nat × ImageReconstruction)
  | [] => none
  | (k, r) :: rest =>
    match oldestEntry rest with
    | none => some (k, r)
    | some (k', r') =>
      if r'.metadata.first_received < r.metadata.first_received
      then some (k', r') else some (k, r)

/-- `min(self._completed.keys())`. -/
def minKey {α : Type} : List (Nat × α) → Option Nat
  | [] => none
  | (k, _) :: rest =>
    match minKey rest with
    | none => some k
    | some k' => if k' < k then some k' else some k

/-- The `while len(self._completed) > self._max_completed` trim loop, with
fuel. -/
def trimCompletedAux : Nat → EngineState → EngineState
  | 0, s => s
  | fuel + 1, s =>
    if s.max_completed < s.completed.length then
      match minKey s.completed with
      | some oldest =>
        trimCompletedAux fuel { s with completed := dictDel s.completed oldest }
      | none => s
    else s

def trimCompleted (s : EngineState) : EngineState :=
  trimCompletedAux s.completed.length s

/-- `_complete_image`. -/
def completeImage (s : EngineState) (image_id : Nat) :
    EngineState × Option (List Nat) :=
  match dictGet s.images image_id, dictGet s.decoders image_id with
  | some image_rec, some decoder =>
    match decoder.get_decoded_data with
    | none => (removeImage s image_id .FAILED, none)
    | some decoded_data =>
      if image_rec.metadata.checksum ≠ 0
          ∧ crc32 decoded_data ≠ image_rec.metadata.checksum then
        let s' := removeImage s image_id .FAILED
        ({ s' with images_failed := s'.images_failed + 1 }, none)
      else
        let image_rec' := { image_rec with status := .COMPLETE,
                                           decoded_data := some decoded_data }
        let s' := { s with
          completed := dictSet s.completed image_id image_rec',
          images := dictDel s.images image_id,
          decoders := dictDel s.decoders image_id,
          images_completed := s.images_completed + 1,
          callbacks := s.callbacks ++ [(image_id, decoded_data, image_rec'.metadata)] }
        (trimCompleted s', some decoded_data)
  | _, _ => (s, none)

/-- The replay loop in `add_metadata`: feed each buffered symbol to the newly
created decoder, breaking at the first completion. -/
def replayBuffered (lib : Lib) (s : EngineState) (image_id : Nat) :
    List (Nat × List Nat) → EngineState
  | [] => s
  | (sym_id, sym_data) :: rest =>
    match dictGet s.decoders image_id with
    | none => s
    | some dec =>
      let (dec', complete) := RaptorQDecoder.add_symbol lib dec sym_id sym_data
      let s' := { s with decoders := dictSet s.decoders image_id dec' }
      if complete then (completeImage s' image_id).1
      else replayBuffered lib s' image_id rest

/-- `FountainDecoder.add_metadata`. -/
def add_metadata (lib : Lib) (now : Nat) (s : EngineState)
    (metadata : ImageMetadata) : EngineState × Bool :=
  let image_id := metadata.image_id
  if dictMem s.completed image_id then (s, false)
  else
    match dictGet s.images image_id with
    | some image_rec =>
      let image_rec' := { image_rec with metadata := metadata }
      let s' := { s with images := dictSet s.images image_id image_rec' }
      if ¬ dictMem s'.decoders image_id ∧ 0 < metadata.num_source_symbols then
        let dec := RaptorQDecoder.init metadata.num_source_symbols
          metadata.symbol_size metadata.total_size
        let s'' := { s' with decoders := dictSet s'.decoders image_id dec }
        (replayBuffered lib s'' image_id image_rec'.received_symbols, true)
      else (s', true)
    | none =>
      let s' := cleanupTimeout now s
      let s'' :=
        if s'.max_pending ≤ s'.images.length then
          match oldestEntry s'.images with
          | some (oldest_id, _) => removeImage s' oldest_id .TIMEOUT
          | none => s'
        else s'
      let dec := RaptorQDecoder.init metadata.num_source_symbols
        metadata.symbol_size metadata.total_size
      let imgs := dictSet s''.images image_id (ImageReconstruction.mk0 metadata)
      ({ s'' with images := imgs, decoders := dictSet s''.decoders image_id dec },
       true)

/-- `FountainDecoder.add_symbol`. -/
def add_symbol (lib : Lib) (now : Nat) (s : EngineState)
    (image_id symbol_id : Nat) (symbol_data : List Nat) :
    EngineState × Option (List Nat) :=
  let s := { s with symbols_received := s.symbols_received + 1 }
  if dictMem s.completed image_id then
    ({ s with symbols_duplicate := s.symbols_duplicate + 1 }, none)
  else
    match dictGet s.images image_id with
    | none =>
      let placeholder : ImageMetadata :=
        ⟨image_id, 0, symbol_data.length, 0, 0, 0, 0, 0, now, now⟩
      let imgs := dictSet s.images image_id (ImageReconstruction.mk0 placeholder)
      ({ s with images := imgs }, none)
    | some image_rec =>
      let image_rec :=
        { image_rec with metadata :=
            { image_rec.metadata with last_received := now } }
      let s := { s with images := dictSet s.images image_id image_rec }
      match dictGet s.decoders image_id with
      | none =>
        let syms := dictSet image_rec.received_symbols symbol_id symbol_data
        let image_rec := { image_rec with received_symbols := syms }
        ({ s with images := dictSet s.images image_id image_rec }, none)
      | some decoder =>
        let (dec', complete) :=
          RaptorQDecoder.add_symbol lib decoder symbol_id symbol_data
        let s := { s with decoders := dictSet s.decoders image_id dec' }
        let syms := dictSet image_rec.received_symbols symbol_id symbol_data
        let image_rec := { image_rec with received_symbols := syms }
        let s := { s with images := dictSet s.images image_id image_rec }
        if complete then completeImage s image_id else (s, none)

/-! ## LT encoder seed selection (src/Pi/airborne/fountain.py)

`LTEncoder.__init__` line 139: `self.seed = seed or random.randint(0, 2**32-1)`.
Python's `or` takes the right operand when the left is falsy, i.e. when the
requested seed is `None` *or `0`*; `ambient_draw` stands for the
`random.randint` result of that construction. -/

def LTEncoder.effectiveSeed (seed : Option Nat) (ambient_draw : Nat) : Nat :=
  match seed with
  | none => ambient_draw
  | some s => if s = 0 then ambient_draw else s

/-- `_generate_one_symbol` line 202: the per-symbol RNG is seeded with
`self.seed + symbol_id`; the `(degree, indices)` derivation is a function of
this value (and `K`). -/
def LTEncoder.symbolRngSeed (effective_seed symbol_id : Nat) : Nat :=
  effective_seed + symbol_id

/-! ### Concrete engine states used to instantiate the engine-level theorems -/

/-- One pending image (id 7, checksum 5) whose decoder has already produced
the blob `[1]`. -/
def c1WitnessState : EngineState :=
  ⟨200, 10, 300,
    [(7, ⟨⟨7, 1, 1, 1, 5, 0, 0, 0, 0, 0⟩, ImageStatus.RECEIVING, [], none⟩)],
    [(7, ⟨1, 1, 1, [], some [1], []⟩)], [], 100, 0, 0, 0, 0, [], []⟩

/-- One pending image (id 5) whose decoder is installed and empty. -/
def c5WitnessState : EngineState :=
  ⟨200, 10, 300,
    [(5, ⟨⟨5, 10, 2, 1, 100, 0, 0, 0, 0, 0⟩, ImageStatus.RECEIVING, [], none⟩)],
    [(5, ⟨1, 2, 10, [], none, []⟩)], [], 100, 0, 0, 0, 0, [], []⟩

/-- `max_pending = 1` with one active reconstruction (id 1), so a META for a
new image id arrives at capacity. -/
def c6WitnessState : EngineState :=
  ⟨200, 1, 300,
    [(1, ⟨⟨1, 10, 2, 1, 0, 0, 0, 0, 0, 0⟩, ImageStatus.RECEIVING, [], none⟩)],
    [(1, ⟨1, 2, 10, [], none, []⟩)], [], 100, 0, 0, 0, 0, [], []⟩

/-! ### Helper lemmas: CRC bounds and frame round-trip -/

theorem crcStep_lt {c : Nat} (h : c < 2 ^ 32) : crcStep c < 2 ^ 32 := by
  unfold crcStep
  split
  · exact Nat.xor_lt_two_pow (by omega) (by norm_num [CRC32_POLYNOMIAL])
  · omega

theorem crcStep_iterate_lt (n : Nat) {c : Nat} (h : c < 2 ^ 32) :
    crcStep^[n] c < 2 ^ 32 := by
  induction n generalizing c with
  | zero => simpa using h
  | succ n ih => rw [Function.iterate_succ_apply]; exact ih (crcStep_lt h)

theorem crcTableEntry_lt {i : Nat} (h : i < 2 ^ 32) : crcTableEntry i < 2 ^ 32 :=
  crcStep_iterate_lt 8 h

theorem crc32_update_lt {crc : Nat} (b : Nat) (h : crc < 2 ^ 32) :
    crc32_update crc b < 2 ^ 32 := by
  unfold crc32_update
  refine Nat.xor_lt_two_pow (crcTableEntry_lt ?_) ?_
  · have : (crc ^^^ b) &&& 255 ≤ 255 := Nat.and_le_right
    omega
  · rw [Nat.shiftRight_eq_div_pow]; omega

theorem crc32_lt (data : List Nat) : crc32 data < 2 ^ 32 := by
  unfold crc32
  refine Nat.xor_lt_two_pow ?_ (by norm_num)
  have : ∀ (l : List Nat) (acc : Nat), acc < 2 ^ 32 →
      l.foldl crc32_update acc < 2 ^ 32 := by
    intro l
    induction l with
    | nil => intro acc h; simpa using h
    | cons b rest ih =>
      intro acc h
      exact ih (crc32_update acc b) (crc32_update_lt b h)
  exact this data 0xFFFFFFFF (by norm_num)

theorem fromBe_be32 {v : Nat} (h : v < 2 ^ 32) : fromBe (be32 v) = v := by
  simp only [be32, fromBe, List.foldl]
  omega

theorem length_crc32_bytes (d : List Nat) : (crc32_bytes d).length = 4 := rfl

/-- A frame followed by its own CRC always verifies. -/
theorem verify_crc32_packet_append (d : List Nat) :
    verify_crc32_packet (d ++ crc32_bytes d) = true := by
  unfold verify_crc32_packet
  have hlen : (d ++ crc32_bytes d).length = d.length + 4 := by
    simp [length_crc32_bytes]
  rw [if_neg (by omega)]
  have h1 : (d ++ crc32_bytes d).take ((d ++ crc32_bytes d).length - 4) = d := by
    rw [hlen]; exact List.take_left' (by omega)
  have h2 : (d ++ crc32_bytes d).drop ((d ++ crc32_bytes d).length - 4)
      = crc32_bytes d := by
    rw [hlen]; exact List.drop_left' (by omega)
  rw [h1, h2]
  simp [crc32_bytes, fromBe_be32 (crc32_lt d)]

theorem PacketType.ofByte_toByte (t : PacketType) :
    PacketType.ofByte t.toByte = some t := by
  cases t <;> rfl

theorem getD_four (a b c d e : Nat) (l : List Nat) :
    (a :: b :: c :: d :: e :: l).getD 4 0 = e := rfl

theorem getD_five (a b c d e f : Nat) (l : List Nat) :
    (a :: b :: c :: d :: e :: f :: l).getD 5 0 = f := rfl

theorem getD_six (a b c d e f g : Nat) (l : List Nat) :
    (a :: b :: c :: d :: e :: f :: g :: l).getD 6 0 = g := rfl

theorem getD_seven (a b c d e f g h : Nat) (l : List Nat) :
    (a :: b :: c :: d :: e :: f :: g :: h :: l).getD 7 0 = h := rfl

/-- Round-trip of `parse_packet` over `build_packet`, with trailing padding
when the packet type has a known fixed payload length (and no padding for the
variable-length types, whose parse consumes the whole buffer). -/
theorem parse_build_general (t : PacketType) (sequence flags : Nat)
    (payload pad : List Nat) (hseq : sequence < 65536) (hflags : flags < 256)
    (hlen : payload.length ≤ 243)
    (hok : expectedPayloadLength t = some payload.length
           ∨ (expectedPayloadLength t = none ∧ pad = [])) :
    ∃ frame, build_packet t sequence payload flags = some frame ∧
      parse_packet (frame ++ pad) = some (t, sequence, flags, payload) := by
  have hb : build_packet t sequence payload flags
      = some ((SYNC_WORD ++ [t.toByte, sequence / 256 % 256, sequence % 256, flags]
          ++ payload)
        ++ crc32_bytes (SYNC_WORD
          ++ [t.toByte, sequence / 256 % 256, sequence % 256, flags] ++ payload)) := by
    unfold build_packet
    rw [if_neg (by simp [MAX_PAYLOAD_SIZE]; omega), if_neg (by omega)]
  set body := SYNC_WORD ++ [t.toByte, sequence / 256 % 256, sequence % 256, flags]
      ++ payload with hbody
  refine ⟨body ++ crc32_bytes body, hb, ?_⟩
  have hbodylen : body.length = 8 + payload.length := by
    simp [hbody, SYNC_WORD]; omega
  have hcons : (body ++ crc32_bytes body) ++ pad
      = 0x52 :: 0x41 :: 0x50 :: 0x54 :: t.toByte :: (sequence / 256 % 256)
          :: (sequence % 256) :: flags :: (payload ++ (crc32_bytes body ++ pad)) := by
    simp [hbody, SYNC_WORD]
  have hdatalen : ((body ++ crc32_bytes body) ++ pad).length
      = 12 + payload.length + pad.length := by
    simp [hbodylen, length_crc32_bytes]; omega
  have hseqval : sequence / 256 % 256 * 256 + sequence % 256 = sequence := by
    omega
  have htake4 : ((body ++ crc32_bytes body) ++ pad).take 4 = SYNC_WORD := by
    rw [hcons]; rfl
  have hgetD4 : ((body ++ crc32_bytes body) ++ pad).getD 4 0 = t.toByte := by
    rw [hcons]; rfl
  have hparse : parse_packet ((body ++ crc32_bytes body) ++ pad)
      = parsePacketTyped t ((body ++ crc32_bytes body) ++ pad) := by
    unfold parse_packet
    rw [if_neg (by rw [hdatalen]; simp only [HEADER_SIZE]; omega),
      if_neg (by rw [htake4]; simp), hgetD4, PacketType.ofByte_toByte]
  rw [hparse]
  unfold parsePacketTyped
  rcases hok with hE | ⟨hE, hpad⟩
  · have htot : expectedTotal t ((body ++ crc32_bytes body) ++ pad)
        = HEADER_SIZE + payload.length + CRC_SIZE := by
      unfold expectedTotal; rw [hE]
    rw [htot]
    rw [if_neg (by
      rw [hdatalen]; simp only [HEADER_SIZE, CRC_SIZE]; omega)]
    have htake : ((body ++ crc32_bytes body) ++ pad).take
        (HEADER_SIZE + payload.length + CRC_SIZE) = body ++ crc32_bytes body := by
      refine List.take_left' ?_
      simp only [List.length_append, hbodylen, length_crc32_bytes,
        HEADER_SIZE, CRC_SIZE]
      try omega
    rw [htake, verify_crc32_packet_append, if_pos rfl]
    have hlen2 : (body ++ crc32_bytes body).length = 12 + payload.length := by
      simp [hbodylen, length_crc32_bytes]; omega
    have hpre : (body ++ crc32_bytes body).take
        ((body ++ crc32_bytes body).length - CRC_SIZE) = body := by
      rw [hlen2]
      exact List.take_left' (by rw [hbodylen]; simp only [CRC_SIZE]; omega)
    rw [hpre]
    have hpay : body.drop HEADER_SIZE = payload := by
      rw [hbody]
      exact List.drop_left' (by simp [SYNC_WORD, HEADER_SIZE])
    rw [hpay, hcons, getD_five, getD_six, getD_seven, hseqval]
  · subst hpad
    have htot : expectedTotal t ((body ++ crc32_bytes body) ++ [])
        = ((body ++ crc32_bytes body) ++ []).length := by
      unfold expectedTotal; rw [hE]
    rw [htot]
    rw [if_neg (by omega)]
    have htake2 : ((body ++ crc32_bytes body) ++ []).take
        (((body ++ crc32_bytes body) ++ []).length) = body ++ crc32_bytes body := by
      simp
    rw [htake2, verify_crc32_packet_append, if_pos rfl]
    have hlen2 : (body ++ crc32_bytes body).length = 12 + payload.length := by
      simp [hbodylen, length_crc32_bytes]; omega
    have hpre : (body ++ crc32_bytes body).take
        ((body ++ crc32_bytes body).length - CRC_SIZE) = body := by
      rw [hlen2]
      exact List.take_left' (by rw [hbodylen]; simp only [CRC_SIZE]; omega)
    rw [hpre]
    have hpay : body.drop HEADER_SIZE = payload := by
      rw [hbody]
      exact List.drop_left' (by simp [SYNC_WORD, HEADER_SIZE])
    rw [hpay, hcons, getD_five, getD_six, getD_seven, hseqval]

/-- A frame built for a fixed-expected-length type with a payload shorter
than expected is rejected: the parser's `len(data) < expected_total` check
fires before any CRC is examined. -/
theorem parse_build_short (t : PacketType) (n sequence flags : Nat)
    (payload : List Nat) (hseq : sequence < 65536) (hflags : flags < 256)
    (hlen : payload.length ≤ 243) (hE : expectedPayloadLength t = some n)
    (hshort : payload.length < n) :
    (build_packet t sequence payload flags).bind parse_packet = none := by
  have hb : build_packet t sequence payload flags
      = some ((SYNC_WORD ++ [t.toByte, sequence / 256 % 256, sequence % 256, flags]
          ++ payload)
        ++ crc32_bytes (SYNC_WORD
          ++ [t.toByte, sequence / 256 % 256, sequence % 256, flags] ++ payload)) := by
    unfold build_packet
    rw [if_neg (by simp [MAX_PAYLOAD_SIZE]; omega), if_neg (by omega)]
  set body := SYNC_WORD ++ [t.toByte, sequence / 256 % 256, sequence % 256, flags]
      ++ payload with hbody
  rw [hb]
  show parse_packet (body ++ crc32_bytes body) = none
  have hbodylen : body.length = 8 + payload.length := by
    simp [hbody, SYNC_WORD]; omega
  have hcons : body ++ crc32_bytes body
      = 0x52 :: 0x41 :: 0x50 :: 0x54 :: t.toByte :: (sequence / 256 % 256)
          :: (sequence % 256) :: flags :: (payload ++ crc32_bytes body) := by
    simp [hbody, SYNC_WORD]
  have hdatalen : (body ++ crc32_bytes body).length = 12 + payload.length := by
    simp [hbodylen, length_crc32_bytes]; omega
  have htake4 : (body ++ crc32_bytes body).take 4 = SYNC_WORD := by
    rw [hcons]; rfl
  have hgetD4 : (body ++ crc32_bytes body).getD 4 0 = t.toByte := by
    rw [hcons]; rfl
  have hparse : parse_packet (body ++ crc32_bytes body)
      = parsePacketTyped t (body ++ crc32_bytes body) := by
    unfold parse_packet
    rw [if_neg (by rw [hdatalen]; simp only [HEADER_SIZE]; omega),
      if_neg (by rw [htake4]; simp), hgetD4, PacketType.ofByte_toByte]
  rw [hparse]
  unfold parsePacketTyped
  have htot : expectedTotal t (body ++ crc32_bytes body)
      = HEADER_SIZE + n + CRC_SIZE := by
    unfold expectedTotal; rw [hE]
  rw [htot]
  rw [if_pos (by rw [hdatalen]; simp only [HEADER_SIZE, CRC_SIZE]; omega)]

/-- Every successfully built frame is 12 bytes longer than its payload. -/
theorem build_packet_length {t : PacketType} {sequence flags : Nat}
    {payload frame : List Nat}
    (h : build_packet t sequence payload flags = some frame) :
    frame.length = 12 + payload.length := by
  unfold build_packet at h
  split at h
  · exact absurd h (by simp)
  split at h
  · exact absurd h (by simp)
  · simp only [Option.some.injEq] at h
    rw [← h]
    simp [SYNC_WORD, length_crc32_bytes]
    omega

/-- When `parse_packet` succeeds for a packet type with no fixed expected
payload length, the returned payload spans the whole buffer between header
and trailing CRC: its length is `data.length - 12`, padding included. -/
theorem parse_packet_fallback_length (data : List Nat) (t : PacketType)
    (s f : Nat) (p : List Nat) (hE : expectedPayloadLength t = none)
    (h : parse_packet data = some (t, s, f, p)) :
    p.length = data.length - 12 := by
  unfold parse_packet at h
  split at h
  · simp at h
  split at h
  · simp at h
  split at h
  · simp at h
  · rename_i pt hpt
    unfold parsePacketTyped at h
    split at h
    · simp at h
    split at h
    · simp only [Option.some.injEq, Prod.mk.injEq] at h
      obtain ⟨rfl, -, -, hp⟩ := h
      have htot : expectedTotal pt data = data.length := by
        unfold expectedTotal; rw [hE]
      rw [← hp, htot]
      simp only [List.take_length, List.length_drop, List.length_take,
        HEADER_SIZE, CRC_SIZE]
      omega
    split at h
    · split at h
      · simp only [Option.some.injEq, Prod.mk.injEq] at h
        obtain ⟨rfl, -, -, hp⟩ := h
        rw [← hp]
        simp only [List.length_drop, List.length_take, HEADER_SIZE, CRC_SIZE]
        omega
      · simp at h
    · simp at h

/-! ### Counting lemmas for the synthetic 10 000-call run -/

/-- Steady state of the C4 run: one active image (id 1, 20 000 total symbols,
`j` symbols sent), empty queues.  With `telemetry_interval = 10` and
`image_meta_interval = 100`, every call whose counter is a multiple of 10 is
TELEMETRY (including every multiple of 100) and every other call is
IMAGE_DATA; no IMAGE_META is ever emitted from this state. -/
theorem schedRunCounts_steady :
    ∀ (n m q j : Nat), j + n ≤ 20000 →
    schedRunCounts ⟨10, 100, q, m, some ⟨1, 20000, j, j⟩, [], []⟩ n
      = ((m + n) / 10 - m / 10, 0, n - ((m + n) / 10 - m / 10)) := by
  intro n
  induction n with
  | zero => intro m q j h; simp [schedRunCounts]
  | succ n ih =>
    intro m q j h
    by_cases h10 : (m + 1) % 10 = 0
    · have step :
          get_next_packet ⟨10, 100, q, m, some ⟨1, 20000, j, j⟩, [], []⟩
            = (⟨10, 100, (q + 1) % 65536, m + 1, some ⟨1, 20000, j, j⟩, [], []⟩,
               Frame.telemetry) := by
        simp [get_next_packet, getTelemetryPacket, advanceSeq, h10]
      have hn : j + n ≤ 20000 := by omega
      simp only [schedRunCounts, step, ih (m + 1) ((q + 1) % 65536) j hn,
        Frame.isTelemetry, Frame.isMeta, Frame.isData]
      refine Prod.ext ?_ (Prod.ext ?_ ?_) <;> simp <;> omega
    · have h100 : ¬ (m + 1) % 100 = 0 := by omega
      have hcompl : ¬ (20000 ≤ j) := by omega
      have step :
          get_next_packet ⟨10, 100, q, m, some ⟨1, 20000, j, j⟩, [], []⟩
            = (⟨10, 100, (q + 1) % 65536, m + 1,
                 some ⟨1, 20000, j + 1, j + 1⟩, [], []⟩,
               Frame.imageData 1 j) := by
        simp [get_next_packet, dataOrTelemetry, getImageDataPacket,
          ImageTransmission.is_complete, advanceSeq, h10, h100, hcompl]
      have hn : (j + 1) + n ≤ 20000 := by omega
      simp only [schedRunCounts, step, ih (m + 1) ((q + 1) % 65536) (j + 1) hn,
        Frame.isTelemetry, Frame.isMeta, Frame.isData]
      refine Prod.ext ?_ (Prod.ext ?_ ?_) <;> simp <;> omega

/-- Counts over `n + 1` calls of the C4 run: the first call promotes the
queued image and emits its IMAGE_META; the remaining `n` calls follow the
steady-state pattern. -/
theorem schedRunCounts_run (n : Nat) (h : n ≤ 19999) :
    schedRunCounts (((SchedState.init 10 100).queue_image 1 20000).1) (n + 1)
      = ((1 + n) / 10, 1, n - (1 + n) / 10) := by
  have step1 :
      get_next_packet (((SchedState.init 10 100).queue_image 1 20000).1)
        = (⟨10, 100, 1, 1, some ⟨1, 20000, 0, 0⟩, [], []⟩, Frame.imageMeta 1) := by
    decide
  rw [schedRunCounts, step1]
  rw [show ((⟨10, 100, 1, 1, some ⟨1, 20000, 0, 0⟩, [], []⟩, Frame.imageMeta 1) :
        SchedState × Frame).1
      = ⟨10, 100, 1, 1, some ⟨1, 20000, 0, 0⟩, [], []⟩ from rfl]
  rw [show ((⟨10, 100, 1, 1, some ⟨1, 20000, 0, 0⟩, [], []⟩, Frame.imageMeta 1) :
        SchedState × Frame).2 = Frame.imageMeta 1 from rfl]
  rw [schedRunCounts_steady n 1 1 0 (by omega)]
  refine Prod.ext ?_ (Prod.ext ?_ ?_) <;>
    simp [Frame.isTelemetry, Frame.isMeta, Frame.isData]

/-! ### Scheduler invariant lemmas (for C10) -/

/-- Soundness of one scheduler sub-step with respect to the META-before-DATA
discipline: any emitted IMAGE_DATA frame belongs to an image that was already
active, and any image active afterwards either was active (same id) before or
had its IMAGE_META emitted by this very step. -/
def StepOk (s s' : SchedState) (f : Option Frame) : Prop :=
  (∀ i sid, f = some (Frame.imageData i sid) →
      ∃ img, s.current_image = some img ∧ img.image_id = i)
  ∧ (∀ img', s'.current_image = some img' →
      (∃ img, s.current_image = some img ∧ img.image_id = img'.image_id)
      ∨ f = some (Frame.imageMeta img'.image_id))

theorem getImageMetaPacket_StepOk (s s' : SchedState) (f : Option Frame)
    (hg : getImageMetaPacket s = (s', f)) : StepOk s s' f := by
  unfold getImageMetaPacket metaForCurrent at hg
  repeat' split at hg
  all_goals rw [Prod.mk.injEq] at hg
  all_goals obtain ⟨h1, h2⟩ := hg
  all_goals subst h1
  all_goals subst h2
  all_goals constructor
  all_goals intros
  all_goals simp_all [advanceSeq]

theorem getImageDataPacket_StepOk (s s' : SchedState) (f : Option Frame)
    (hg : getImageDataPacket s = (s', f)) : StepOk s s' f := by
  unfold getImageDataPacket metaForCurrent at hg
  repeat' split at hg
  all_goals rw [Prod.mk.injEq] at hg
  all_goals obtain ⟨h1, h2⟩ := hg
  all_goals subst h1
  all_goals subst h2
  all_goals constructor
  all_goals intros
  all_goals simp_all [advanceSeq]
  all_goals (rename_i ha; rw [← ha])

theorem getTelemetryPacket_current (s : SchedState) :
    (getTelemetryPacket s).1.current_image = s.current_image := rfl

theorem dataOrTelemetry_StepOk (s s' : SchedState) (f : Frame)
    (hg : dataOrTelemetry s = (s', f)) : StepOk s s' (some f) := by
  unfold dataOrTelemetry at hg
  rcases hd : getImageDataPacket s with ⟨s₂, f₂⟩
  rw [hd] at hg
  have hspec := getImageDataPacket_StepOk s s₂ f₂ hd
  cases f₂ with
  | some f₀ =>
    simp only at hg
    rw [Prod.mk.injEq] at hg
    obtain ⟨h1, h2⟩ := hg
    subst h1; subst h2
    exact hspec
  | none =>
    simp only at hg
    rw [show getTelemetryPacket s₂ = (advanceSeq s₂, Frame.telemetry) from rfl,
      Prod.mk.injEq] at hg
    obtain ⟨h1, h2⟩ := hg
    subst h1; subst h2
    constructor
    · intro i sid h; simp at h
    · intro img' h
      have : s₂.current_image = some img' := h
      rcases hspec.2 img' this with hl | hr
      · exact Or.inl hl
      · simp at hr

theorem metaOrData_StepOk (s s' : SchedState) (f : Frame)
    (hg : metaOrData s = (s', f)) : StepOk s s' (some f) := by
  unfold metaOrData at hg
  rcases hm : getImageMetaPacket s with ⟨s₂, f₂⟩
  rw [hm] at hg
  have hspec := getImageMetaPacket_StepOk s s₂ f₂ hm
  cases f₂ with
  | some f₀ =>
    simp only at hg
    rw [Prod.mk.injEq] at hg
    obtain ⟨h1, h2⟩ := hg
    subst h1; subst h2
    exact hspec
  | none =>
    simp only at hg
    have hd := dataOrTelemetry_StepOk s₂ s' f hg
    constructor
    · intro i sid h
      obtain ⟨img, hcur, hid⟩ := hd.1 i sid h
      rcases hspec.2 img hcur with ⟨img0, hc0, hid0⟩ | hr
      · exact ⟨img0, hc0, by rw [hid0, hid]⟩
      · simp at hr
    · intro img' h
      rcases hd.2 img' h with ⟨img, hcur, hid⟩ | hr
      · rcases hspec.2 img hcur with ⟨img0, hc0, hid0⟩ | hr0
        · exact Or.inl ⟨img0, hc0, by rw [hid0, hid]⟩
        · simp at hr0
      · exact Or.inr hr

theorem get_next_packet_StepOk (s s' : SchedState) (f : Frame)
    (hg : get_next_packet s = (s', f)) : StepOk s s' (some f) := by
  unfold get_next_packet at hg
  rcases hpq : s.priority_queue with _ | ⟨q, rest⟩
  all_goals rw [hpq] at hg
  · simp only at hg
    by_cases h10 : (s.packet_counter + 1) % s.telemetry_interval = 0
    · rw [if_pos h10,
        show ∀ s₀, getTelemetryPacket s₀ = (advanceSeq s₀, Frame.telemetry)
          from fun _ => rfl,
        Prod.mk.injEq] at hg
      obtain ⟨h1, h2⟩ := hg
      subst h1; subst h2
      constructor
      · intro i sid h; simp at h
      · intro img' h; exact Or.inl ⟨img', h, rfl⟩
    · rw [if_neg h10] at hg
      by_cases h100 : (s.packet_counter + 1) % s.image_meta_interval = 0
      · rw [if_pos h100] at hg
        have := metaOrData_StepOk _ s' f hg
        exact ⟨this.1, this.2⟩
      · rw [if_neg h100] at hg
        have := dataOrTelemetry_StepOk _ s' f hg
        exact ⟨this.1, this.2⟩
  · simp only at hg
    rw [Prod.mk.injEq] at hg
    obtain ⟨h1, h2⟩ := hg
    subst h1; subst h2
    constructor
    · intro i sid h; simp at h
    · intro img' h; exact Or.inl ⟨img', h, rfl⟩

/-- The queueing operations never change the active image and emit no
frame. -/
theorem schedStep_queue_current (s : SchedState) (op : SchedOp)
    (hop : op ≠ SchedOp.next) :
    (schedStep s op).1.current_image = s.current_image
    ∧ (schedStep s op).2 = none := by
  cases op with
  | next => exact absurd rfl hop
  | queueImage a b =>
    refine ⟨?_, rfl⟩
    show (SchedState.queue_image s a b).1.current_image = s.current_image
    unfold SchedState.queue_image
    split <;> rfl
  | queueText p c => simp [schedStep, SchedState.queue_packet]
  | queueAck c => simp [schedStep, SchedState.queue_packet]

/-- Core induction for C10: in any trace emitted from state `s`, an
IMAGE_DATA frame for image `i` is preceded by an IMAGE_META frame for `i`
unless image `i` was already active in `s`. -/
theorem runSched_data_meta (ops : List SchedOp) :
    ∀ (s : SchedState) (idx i sid : Nat),
    (runSched s ops).get? idx = some (Frame.imageData i sid) →
    (∃ j, j < idx ∧ (runSched s ops).get? j = some (Frame.imageMeta i))
    ∨ (∃ img, s.current_image = some img ∧ img.image_id = i) := by
  induction ops with
  | nil => intro s idx i sid h; simp [runSched] at h
  | cons op ops ih =>
    intro s idx i sid h
    by_cases hop : op = SchedOp.next
    · subst hop
      rcases hg : get_next_packet s with ⟨s', f⟩
      have hspec := get_next_packet_StepOk s s' f hg
      have hrun : runSched s (SchedOp.next :: ops) = f :: runSched s' ops := by
        simp [runSched, schedStep, hg]
      rw [hrun] at h
      cases idx with
      | zero =>
        simp only [List.get?_cons_zero, Option.some.injEq] at h
        subst h
        obtain ⟨img, hcur, hid⟩ := hspec.1 i sid rfl
        exact Or.inr ⟨img, hcur, hid⟩
      | succ idx' =>
        simp only [List.get?_cons_succ] at h
        rcases ih s' idx' i sid h with ⟨j, hj, hmeta⟩ | ⟨img', hcur', hid'⟩
        · refine Or.inl ⟨j + 1, by omega, ?_⟩
          rw [hrun]
          simpa using hmeta
        · rcases hspec.2 img' hcur' with ⟨img, hcur, hid⟩ | hmeta
          · exact Or.inr ⟨img, hcur, by rw [hid, hid']⟩
          · refine Or.inl ⟨0, by omega, ?_⟩
            rw [hrun]
            simp only [Option.some.injEq] at hmeta
            simp [hmeta, hid']
    · have hq := schedStep_queue_current s op hop
      rcases hs : schedStep s op with ⟨s1, f?⟩
      rw [hs] at hq
      simp only at hq
      have hrun : runSched s (op :: ops) = runSched s1 ops := by
        rw [runSched, hs, hq.2]
      rw [hrun] at h
      rcases ih s1 idx i sid h with hl | ⟨img, hcur, hid⟩
      · exact Or.inl (by rw [hrun]; exact hl)
      · exact Or.inr ⟨img, by rw [← hq.1]; exact hcur, hid⟩

/-! ### Engine helper lemmas -/

theorem dictMem_of_get {α : Type} {d : List (Nat × α)} {k : Nat} {v : α}
    (h : dictGet d k = some v) : dictMem d k = true := by
  simp [dictMem, h]

theorem dictGet_set_self {α : Type} (d : List (Nat × α)) (k : Nat) (v : α) :
    dictGet (dictSet d k v) k = some v := by
  induction d with
  | nil => simp [dictGet, dictSet]
  | cons p rest ih =>
    obtain ⟨k', v'⟩ := p
    by_cases hk : k' = k
    · simp [dictGet, dictSet, hk]
    · simp [dictGet, dictSet, hk, ih]

theorem dictSet_eq_self {α : Type} {d : List (Nat × α)} {k : Nat} {v : α}
    (h : dictGet d k = some v) : dictSet d k v = d := by
  induction d with
  | nil => simp [dictGet] at h
  | cons p rest ih =>
    obtain ⟨k', v'⟩ := p
    by_cases hk : k' = k
    · simp [dictGet, hk] at h
      simp [dictSet, hk, h]
    · simp [dictGet, hk] at h
      simp [dictSet, hk, ih h]

theorem dictGet_del_none {α : Type} {d : List (Nat × α)} {k : Nat}
    (h : dictGet d k = none) (k' : Nat) : dictGet (dictDel d k') k = none := by
  induction d with
  | nil => simpa [dictDel] using h
  | cons p rest ih =>
    obtain ⟨k0, v0⟩ := p
    by_cases hk : k0 = k
    · simp [dictGet, hk] at h
    · simp only [dictGet, if_neg hk] at h
      by_cases hk' : k0 = k'
      · simp [dictDel, hk', h]
      · simp [dictDel, hk', dictGet, hk, ih h]

theorem dictGet_none_of_not_keys {α : Type} {d : List (Nat × α)} {k : Nat}
    (h : k ∉ d.map Prod.fst) : dictGet d k = none := by
  induction d with
  | nil => rfl
  | cons p rest ih =>
    obtain ⟨k0, v0⟩ := p
    simp only [List.map_cons, List.mem_cons, not_or] at h
    simp only [dictGet]
    rw [if_neg (fun he : k0 = k => h.1 he.symm)]
    exact ih h.2

theorem dictGet_del_self_of_nodup {α : Type} {d : List (Nat × α)}
    (hnd : (d.map Prod.fst).Nodup) (k : Nat) :
    dictGet (dictDel d k) k = none := by
  induction d with
  | nil => rfl
  | cons p rest ih =>
    obtain ⟨k0, v0⟩ := p
    simp only [List.map_cons, List.nodup_cons] at hnd
    by_cases hk : k0 = k
    · subst hk
      simp only [dictDel, if_pos rfl]
      exact dictGet_none_of_not_keys hnd.1
    · simp only [dictDel, if_neg hk, dictGet, if_neg hk]
      exact ih hnd.2

theorem length_dictDel_of_mem {α : Type} {d : List (Nat × α)} {k : Nat}
    (h : dictMem d k = true) : (dictDel d k).length + 1 = d.length := by
  induction d with
  | nil => simp [dictMem, dictGet] at h
  | cons p rest ih =>
    obtain ⟨k0, v0⟩ := p
    by_cases hk : k0 = k
    · simp [dictDel, hk]
    · simp only [dictMem, dictGet, if_neg hk] at h
      simp only [dictDel, if_neg hk, List.length_cons]
      rw [← ih h]

theorem length_dictSet_of_not_mem {α : Type} {d : List (Nat × α)} {k : Nat}
    (h : dictMem d k = false) (v : α) :
    (dictSet d k v).length = d.length + 1 := by
  induction d with
  | nil => simp [dictSet]
  | cons p rest ih =>
    obtain ⟨k0, v0⟩ := p
    by_cases hk : k0 = k
    · simp [dictMem, dictGet, hk] at h
    · simp only [dictMem, dictGet, if_neg hk] at h
      simp only [dictSet, if_neg hk, List.length_cons]
      rw [ih h]

theorem length_dictSet_le {α : Type} (d : List (Nat × α)) (k : Nat) (v : α) :
    (dictSet d k v).length ≤ d.length + 1 := by
  induction d with
  | nil => simp [dictSet]
  | cons p rest ih =>
    obtain ⟨k0, v0⟩ := p
    by_cases hk : k0 = k
    · simp [dictSet, hk]
    · simp only [dictSet, if_neg hk, List.length_cons]
      omega

theorem oldestEntry_mem {d : List (Nat × ImageReconstruction)}
    {e : Nat × ImageReconstruction} (h : oldestEntry d = some e) : e ∈ d := by
  induction d generalizing e with
  | nil => simp [oldestEntry] at h
  | cons p rest ih =>
    rcases hr : oldestEntry rest with _ | e'
    · simp only [oldestEntry, hr, Option.some.injEq] at h
      simp [← h]
    · simp only [oldestEntry, hr] at h
      split at h
      · simp only [Option.some.injEq] at h
        have he : e' = e := by rw [← h]
        exact List.mem_cons_of_mem _ (ih (by rw [hr, he]))
      · simp only [Option.some.injEq] at h
        have he : p = e := by rw [← h]
        simp [← he]

theorem oldestEntry_isSome {d : List (Nat × ImageReconstruction)}
    (h : d ≠ []) : (oldestEntry d).isSome = true := by
  cases d with
  | nil => exact absurd rfl h
  | cons p rest =>
    simp only [oldestEntry]
    rcases oldestEntry rest with _ | e'
    · simp
    · repeat' split
      all_goals simp

theorem mem_dictMem {α : Type} {d : List (Nat × α)} {p : Nat × α}
    (h : p ∈ d) : dictMem d p.1 = true := by
  induction d with
  | nil => simp at h
  | cons q rest ih =>
    obtain ⟨k0, v0⟩ := q
    rcases List.mem_cons.mp h with rfl | hmem
    · simp [dictMem, dictGet]
    · by_cases hk : k0 = p.1
      · simp [dictMem, dictGet, hk]
      · simp only [dictMem, dictGet, if_neg hk]
        exact ih hmem

theorem foldl_removeImage_get_none {k : Nat} (ids : List Nat)
    (s : EngineState) (h : dictGet s.images k = none) :
    dictGet ((ids.foldl (fun st i => removeImage st i ImageStatus.TIMEOUT)
        s).images) k = none := by
  induction ids generalizing s with
  | nil => simpa using h
  | cons i rest ih =>
    simp only [List.foldl_cons]
    refine ih _ ?_
    unfold removeImage
    simp only
    split
    all_goals first
      | exact dictGet_del_none h i
      | exact h

theorem cleanupTimeout_get_none {now k : Nat} {s : EngineState}
    (h : dictGet s.images k = none) :
    dictGet (cleanupTimeout now s).images k = none := by
  unfold cleanupTimeout
  simp only
  exact foldl_removeImage_get_none _ s h

theorem trimCompletedAux_noop (fuel : Nat) (s : EngineState)
    (h : s.completed.length ≤ s.max_completed) : trimCompletedAux fuel s = s := by
  cases fuel with
  | zero => rfl
  | succ fuel => simp only [trimCompletedAux]; rw [if_neg (by omega)]

theorem trimCompleted_noop {s : EngineState}
    (h : s.completed.length ≤ s.max_completed) : trimCompleted s = s :=
  trimCompletedAux_noop _ s h

theorem removeImage_of_mem {s : EngineState} {i : Nat}
    {st : ImageStatus} (h : dictMem s.images i = true) :
    (removeImage s i st).images = dictDel s.images i
    ∧ (removeImage s i st).removals = s.removals ++ [(i, st)]
    ∧ (removeImage s i st).max_pending = s.max_pending := by
  unfold removeImage
  rw [if_pos h]
  exact ⟨rfl, rfl, rfl⟩

theorem removeImage_max_pending (s : EngineState) (i : Nat)
    (st : ImageStatus) : (removeImage s i st).max_pending = s.max_pending := by
  unfold removeImage
  split <;> rfl

theorem cleanupTimeout_max_pending {now : Nat} {s : EngineState} :
    (cleanupTimeout now s).max_pending = s.max_pending := by
  unfold cleanupTimeout
  simp only
  generalize (List.filter _ s.images).map Prod.fst = ids
  induction ids generalizing s with
  | nil => rfl
  | cons i rest ih =>
    simp only [List.foldl_cons]
    rw [ih, removeImage_max_pending]

/-! ## Claim theorems -/

/-- C2 (counterexample): the claimed round-trip fails as stated.
`build_packet` accepts any payload of length at most 243 for any type, but
`parse_packet` requires a TELEMETRY frame to carry at least 36 payload bytes
(`expected_total = 48`), so the built frame for an empty TELEMETRY payload is
rejected (`None`) instead of parsing back to `(type, seq, flags, payload)`. -/
theorem C2_roundtrip_counterexample :
    (build_packet PacketType.TELEMETRY 0 [] 0).isSome = true
    ∧ (build_packet PacketType.TELEMETRY 0 [] 0).bind parse_packet = none := by
  decide

/-- C2 (amended): for every enumerated packet type, sequence below 2^16,
flags byte, and payload of length at most 243, `parse_packet` inverts
`build_packet` provided the payload length equals the parser's expected
length for the fixed-length types (36 TELEMETRY, 22 IMAGE_META, 206
IMAGE_DATA, 4 CMD_ACK); for the variable-length types (TEXT_MSG and the
command codes) any payload length round-trips.  A fixed-length-type frame
with a payload *shorter* than expected is always rejected
(`len(data) < expected_total`), while one with a *longer* payload can still
parse and round-trip through the full-buffer CRC fallback, e.g. TELEMETRY
with a 37-byte payload. -/
theorem C2_roundtrip_amended :
    (∀ (t : PacketType) (sequence flags : Nat) (payload : List Nat),
      sequence < 65536 → flags < 256 → payload.length ≤ 243 →
      (expectedPayloadLength t = some payload.length
        ∨ expectedPayloadLength t = none) →
      ∃ frame, build_packet t sequence payload flags = some frame ∧
        parse_packet frame = some (t, sequence, flags, payload))
    ∧ (∀ (t : PacketType) (n sequence flags : Nat) (payload : List Nat),
      sequence < 65536 → flags < 256 → payload.length ≤ 243 →
      expectedPayloadLength t = some n → payload.length < n →
      (build_packet t sequence payload flags).bind parse_packet = none)
    ∧ (build_packet PacketType.TELEMETRY 0 (List.replicate 37 1) 0).bind
        parse_packet = some (PacketType.TELEMETRY, 0, 0, List.replicate 37 1) := by
  refine ⟨?_, ?_, ?_⟩
  · intro t sequence flags payload hseq hflags hlen hok
    obtain ⟨frame, h1, h2⟩ :=
      parse_build_general t sequence flags payload [] hseq hflags hlen
        (hok.imp id (fun hE => ⟨hE, rfl⟩))
    exact ⟨frame, h1, by simpa using h2⟩
  · intro t n sequence flags payload hseq hflags hlen hE hshort
    exact parse_build_short t n sequence flags payload hseq hflags hlen hE hshort
  · decide

/-- C2 (witness): a 36-byte TELEMETRY payload round-trips, and a 35-byte
TELEMETRY payload builds a frame that `parse_packet` rejects. -/
theorem C2_roundtrip_witness :
    (∃ frame,
      build_packet PacketType.TELEMETRY 5 (List.replicate 36 0) 1 = some frame ∧
      parse_packet frame
        = some (PacketType.TELEMETRY, 5, 1, List.replicate 36 0))
    ∧ (build_packet PacketType.TELEMETRY 5 (List.replicate 35 0) 1).bind
        parse_packet = none :=
  ⟨C2_roundtrip_amended.1 PacketType.TELEMETRY 5 1 (List.replicate 36 0)
      (by decide) (by decide) (by decide) (Or.inl (by decide)),
   C2_roundtrip_amended.2.1 PacketType.TELEMETRY 36 5 1 (List.replicate 35 0)
      (by decide) (by decide) (by decide) (by decide) (by decide)⟩

/-- C7 (counterexample): padding tolerance fails for TEXT_MSG, one of the
claim's enumerated air-to-ground types.  A built empty TEXT_MSG frame parses
successfully on its own, but appending a single padding byte makes
`parse_packet` fail: the variable-length path sets `expected_total` to the
whole buffer, so the CRC is checked at the wrong position (twice) and the
frame is dropped.  Padding is not always rejected either: padding whose last
four bytes are the CRC-32 of everything before them (here the frame's own
CRC bytes) parses successfully — yet not to the original quadruple, the
padding being absorbed into a longer payload. -/
theorem C7_padding_counterexample :
    parse_packet ((build_packet PacketType.TEXT_MSG 0 [] 0).getD [])
        = some (PacketType.TEXT_MSG, 0, 0, [])
    ∧ parse_packet (((build_packet PacketType.TEXT_MSG 0 [] 0).getD []) ++ [0])
        = none
    ∧ parse_packet (((build_packet PacketType.TEXT_MSG 0 [] 0).getD [])
          ++ crc32_bytes ((build_packet PacketType.TEXT_MSG 0 [] 0).getD []))
        ≠ none
    ∧ parse_packet (((build_packet PacketType.TEXT_MSG 0 [] 0).getD [])
          ++ crc32_bytes ((build_packet PacketType.TEXT_MSG 0 [] 0).getD []))
        ≠ some (PacketType.TEXT_MSG, 0, 0, []) := by
  refine ⟨by decide, by decide, by decide, by decide⟩

/-- C7 (amended): trailing padding is tolerated exactly for the packet types
with a known fixed payload length (TELEMETRY, IMAGE_META, IMAGE_DATA,
CMD_ACK) when the frame carries exactly that many payload bytes: for every
such frame and every padding, parsing the padded buffer succeeds and returns
the same `(type, seq, flags, payload)` as the unpadded frame.  For the types
with no fixed expected length (TEXT_MSG and the command codes) the payload
is recomputed from the padded buffer, so for every nonempty padding the
padded parse never returns the unpadded frame's quadruple — it either fails
or absorbs the padding into a longer payload. -/
theorem C7_padding_amended :
    (∀ (t : PacketType) (sequence flags : Nat) (payload pad : List Nat),
      sequence < 65536 → flags < 256 → payload.length ≤ 243 →
      expectedPayloadLength t = some payload.length →
      ∃ frame, build_packet t sequence payload flags = some frame ∧
        parse_packet (frame ++ pad) = some (t, sequence, flags, payload) ∧
        parse_packet frame = some (t, sequence, flags, payload))
    ∧ (∀ (t : PacketType) (sequence flags : Nat) (payload pad frame : List Nat),
      expectedPayloadLength t = none → pad ≠ [] →
      build_packet t sequence payload flags = some frame →
      parse_packet (frame ++ pad) ≠ some (t, sequence, flags, payload)) := by
  constructor
  · intro t sequence flags payload pad hseq hflags hlen hfix
    obtain ⟨frame, h1, h2⟩ :=
      parse_build_general t sequence flags payload pad hseq hflags hlen
        (Or.inl hfix)
    obtain ⟨frame', h1', h2'⟩ :=
      parse_build_general t sequence flags payload [] hseq hflags hlen
        (Or.inl hfix)
    rw [h1] at h1'
    obtain rfl : frame = frame' := by injection h1'
    exact ⟨frame, h1, h2, by simpa using h2'⟩
  · intro t sequence flags payload pad frame hE hpad hb hparse
    have hfl : frame.length = 12 + payload.length := build_packet_length hb
    have hp := parse_packet_fallback_length (frame ++ pad) t sequence flags
      payload hE hparse
    rw [List.length_append, hfl] at hp
    have hpl : 0 < pad.length := List.length_pos.mpr hpad
    omega

/-- C7 (witness): a 22-byte IMAGE_META frame parses identically with 100
bytes of trailing padding, and a padded TEXT_MSG frame never parses back to
its own unpadded quadruple. -/
theorem C7_padding_witness :
    (∃ frame,
      build_packet PacketType.IMAGE_META 7 (List.replicate 22 3) 0
        = some frame ∧
      parse_packet (frame ++ List.replicate 100 255)
        = some (PacketType.IMAGE_META, 7, 0, List.replicate 22 3) ∧
      parse_packet frame
        = some (PacketType.IMAGE_META, 7, 0, List.replicate 22 3))
    ∧ parse_packet (([0x52, 0x41, 0x50, 0x54, 0x03, 0, 0, 0]
          ++ crc32_bytes [0x52, 0x41, 0x50, 0x54, 0x03, 0, 0, 0]) ++ [0])
        ≠ some (PacketType.TEXT_MSG, 0, 0, []) :=
  ⟨C7_padding_amended.1 PacketType.IMAGE_META 7 0 (List.replicate 22 3)
      (List.replicate 100 255) (by decide) (by decide) (by decide) (by decide),
   C7_padding_amended.2 PacketType.TEXT_MSG 0 0 [] [0]
      ([0x52, 0x41, 0x50, 0x54, 0x03, 0, 0, 0]
        ++ crc32_bytes [0x52, 0x41, 0x50, 0x54, 0x03, 0, 0, 0])
      (by decide) (by decide) (by decide)⟩

/-- C8 (counterexample): a successful parse does not require 12 bytes.  The
9-byte input `"RAPT" ++ [0x03] ++ crc32("RAPT\x03")` is accepted: the
TEXT_MSG fallback sets `expected_total` to the buffer length (the source's
`len - 12` int arithmetic cancels), and the CRC check passes with the header
bytes doubling as the CRC field. -/
theorem C8_short_frame_counterexample :
    ([0x52, 0x41, 0x50, 0x54, 0x03]
        ++ crc32_bytes [0x52, 0x41, 0x50, 0x54, 0x03]).length = 9
    ∧ parse_packet ([0x52, 0x41, 0x50, 0x54, 0x03]
        ++ crc32_bytes [0x52, 0x41, 0x50, 0x54, 0x03]) ≠ none := by
  decide

/-- C8 (amended): `parse_packet` requires at least `HEADER_SIZE = 8` bytes
(not 12): every shorter input is rejected, and every input whose first four
bytes differ from the `"RAPT"` sync word is rejected; buffers of length 8-11
can still parse successfully. -/
theorem C8_reject_amended (data : List Nat) :
    (data.length < HEADER_SIZE → parse_packet data = none)
    ∧ (data.take 4 ≠ SYNC_WORD → parse_packet data = none) := by
  constructor
  · intro h
    unfold parse_packet
    rw [if_pos h]
  · intro h
    unfold parse_packet
    by_cases h8 : data.length < HEADER_SIZE
    · rw [if_pos h8]
    · rw [if_neg h8, if_pos h]

/-- C8 (witness): a 3-byte input and a 12-byte input with a wrong sync word
are both rejected. -/
theorem C8_reject_witness :
    parse_packet [1, 2, 3] = none ∧ parse_packet (List.replicate 12 7) = none :=
  ⟨(C8_reject_amended [1, 2, 3]).1 (by decide),
   (C8_reject_amended (List.replicate 12 7)).2 (by decide)⟩

/-- C1 (counterexample): the checksum gate is skipped when the META
`checksum` is 0.  With `checksum = 0`, a decode completing with bytes whose
CRC-32 is nonzero (here `crc32 [1] ≠ 0`) is still marked complete, stored in
the completed set, and the completion callback is invoked — contradicting the
claim for checksum value 0. -/
theorem C1_checksum_gate_counterexample :
    (let lib1 : Lib := fun fed => if fed.isEmpty then none else some [1]
     let s1 := (add_metadata lib1 0 (EngineState.init 200 10 300)
        ⟨7, 1, 1, 1, 0, 0, 0, 0, 0, 0⟩).1
     let s2 := (add_symbol lib1 1 s1 7 0 [9]).1
     dictMem s2.completed 7 = true ∧ s2.callbacks.length = 1
       ∧ crc32 [1] ≠ 0) := by
  decide

/-- C1 (amended): in `_complete_image`, when the stored META checksum is
nonzero, a CRC-32 mismatch classifies the reconstruction failed: it is
evicted, recorded as FAILED, the failure counter is incremented, and it is
neither stored in the completed set nor surfaced through the callback.  When
the checksum is 0 — or the CRC matches — verification is skipped or passes
and the image is marked complete, stored, and the callback invoked. -/
theorem C1_checksum_gate_amended (s : EngineState) (image_id : Nat)
    (image_rec : ImageReconstruction) (decoder : RaptorQDecoder) (d : List Nat)
    (hrec : dictGet s.images image_id = some image_rec)
    (hdec : dictGet s.decoders image_id = some decoder)
    (hdata : decoder.decoded_data = some d)
    (hnd : (s.images.map Prod.fst).Nodup)
    (hcap : s.completed.length < s.max_completed) :
    (image_rec.metadata.checksum ≠ 0 →
      crc32 (d.take decoder.total_size) ≠ image_rec.metadata.checksum →
      (completeImage s image_id).2 = none
      ∧ dictMem (completeImage s image_id).1.images image_id = false
      ∧ (completeImage s image_id).1.completed = s.completed
      ∧ (completeImage s image_id).1.callbacks = s.callbacks
      ∧ (completeImage s image_id).1.images_failed = s.images_failed + 1
      ∧ (image_id, ImageStatus.FAILED) ∈ (completeImage s image_id).1.removals)
    ∧ (image_rec.metadata.checksum = 0 ∨
        crc32 (d.take decoder.total_size) = image_rec.metadata.checksum →
      (completeImage s image_id).2 = some (d.take decoder.total_size)
      ∧ dictGet (completeImage s image_id).1.completed image_id
          = some { image_rec with
                    status := ImageStatus.COMPLETE,
                    decoded_data := some (d.take decoder.total_size) }
      ∧ (completeImage s image_id).1.callbacks
          = s.callbacks
            ++ [(image_id, d.take decoder.total_size, image_rec.metadata)]
      ∧ (completeImage s image_id).1.images_completed
          = s.images_completed + 1) := by
  have hmem : dictMem s.images image_id = true := dictMem_of_get hrec
  constructor
  · intro h1 h2
    have hc : completeImage s image_id
        = (let s' := removeImage s image_id .FAILED
           ({ s' with images_failed := s'.images_failed + 1 }, none)) := by
      unfold completeImage
      simp only [hrec, hdec, RaptorQDecoder.get_decoded_data, hdata,
        Option.map_some']
      rw [if_pos ⟨h1, h2⟩]
    rw [hc]
    unfold removeImage
    rw [if_pos hmem]
    refine ⟨rfl, ?_, rfl, rfl, rfl, ?_⟩
    · simp only [dictMem]
      rw [dictGet_del_self_of_nodup hnd]
      rfl
    · simp
  · intro hor
    have hc : completeImage s image_id
        = (let image_rec' := { image_rec with
              status := .COMPLETE,
              decoded_data := some (d.take decoder.total_size) }
           let s' := { s with
              completed := dictSet s.completed image_id image_rec',
              images := dictDel s.images image_id,
              decoders := dictDel s.decoders image_id,
              images_completed := s.images_completed + 1,
              callbacks := s.callbacks
                ++ [(image_id, d.take decoder.total_size, image_rec.metadata)] }
           (trimCompleted s', some (d.take decoder.total_size))) := by
      unfold completeImage
      simp only [hrec, hdec, RaptorQDecoder.get_decoded_data, hdata,
        Option.map_some']
      rw [if_neg (by tauto)]
    rw [hc]
    simp only
    rw [trimCompleted_noop (by
      refine le_trans (length_dictSet_le _ _ _) ?_
      simpa using hcap)]
    refine ⟨by trivial, by rw [dictGet_set_self], by trivial, by trivial⟩

/-- C1 (witness): the failure branch of the amended statement on a concrete
engine state — checksum 5 is nonzero and `crc32 [1] ≠ 5`, so completion marks
image 7 FAILED. -/
theorem C1_checksum_gate_witness :
    (completeImage c1WitnessState 7).2 = none
    ∧ dictMem (completeImage c1WitnessState 7).1.images 7 = false
    ∧ (completeImage c1WitnessState 7).1.completed = c1WitnessState.completed
    ∧ (completeImage c1WitnessState 7).1.callbacks = c1WitnessState.callbacks
    ∧ (completeImage c1WitnessState 7).1.images_failed
        = c1WitnessState.images_failed + 1
    ∧ (7, ImageStatus.FAILED) ∈ (completeImage c1WitnessState 7).1.removals :=
  (C1_checksum_gate_amended c1WitnessState 7
      ⟨⟨7, 1, 1, 1, 5, 0, 0, 0, 0, 0⟩, ImageStatus.RECEIVING, [], none⟩
      ⟨1, 1, 1, [], some [1], []⟩ [1]
      (by decide) (by decide) (by decide) (by decide) (by decide)).1
    (by decide) (by decide)

/-- C5 (counterexample): conflicting META for an in-progress image is not
dropped.  After META with checksum 100 installs the decoder, a second META
for the same image id carrying checksum 200 is accepted and replaces the
stored metadata (the decoder itself is left as built from the first META). -/
theorem C5_meta_immutable_counterexample :
    (let lib0 : Lib := fun _ => none
     let s1 := (add_metadata lib0 0 (EngineState.init 200 10 300)
        ⟨5, 10, 2, 1, 100, 0, 0, 0, 0, 0⟩).1
     let s2 := (add_metadata lib0 5 s1 ⟨5, 10, 2, 1, 200, 0, 0, 0, 5, 5⟩).1
     (dictGet s2.images 5).map (fun r => r.metadata.checksum) = some 200
       ∧ (100 : Nat) ≠ 200) := by
  decide

/-- C5 (amended): once a decoder is installed for an image, a later
`add_metadata` for the same image id — whatever its field values — is
accepted (returns True) and overwrites the stored metadata; the decoder map
(still configured from the original META) and all other engine state are
unchanged. -/
theorem C5_meta_overwrite_amended (lib : Lib) (now : Nat) (s : EngineState)
    (m : ImageMetadata) (image_rec : ImageReconstruction)
    (hnc : dictMem s.completed m.image_id = false)
    (hrec : dictGet s.images m.image_id = some image_rec)
    (hdec : dictMem s.decoders m.image_id = true) :
    add_metadata lib now s m
      = ({ s with
            images := dictSet s.images m.image_id
              { image_rec with metadata := m } }, true) := by
  unfold add_metadata
  rw [if_neg (by rw [hnc]; simp)]
  simp only [hrec]
  rw [if_neg (by simp [hdec])]

/-- C5 (witness): a second META (checksum 200) for in-progress image 5 is
accepted and replaces the stored metadata. -/
theorem C5_meta_overwrite_witness :
    add_metadata (fun _ => none) 5 c5WitnessState
        ⟨5, 10, 2, 1, 200, 0, 0, 0, 5, 5⟩
      = ({ c5WitnessState with
            images := dictSet c5WitnessState.images 5
              { (⟨⟨5, 10, 2, 1, 100, 0, 0, 0, 0, 0⟩, ImageStatus.RECEIVING,
                  [], none⟩ : ImageReconstruction) with
                metadata := ⟨5, 10, 2, 1, 200, 0, 0, 0, 5, 5⟩ } }, true) :=
  C5_meta_overwrite_amended (fun _ => none) 5 c5WitnessState
    ⟨5, 10, 2, 1, 200, 0, 0, 0, 5, 5⟩
    ⟨⟨5, 10, 2, 1, 100, 0, 0, 0, 0, 0⟩, ImageStatus.RECEIVING, [], none⟩
    (by decide) (by decide) (by decide)

/-- C6 (counterexample): the `max_pending` bound does not hold after every
engine operation.  With `max_pending = 1`, two `add_symbol` calls for two
unknown image ids create two placeholder reconstructions with no capacity
check, so the engine holds 2 > 1 active reconstructions. -/
theorem C6_capacity_counterexample :
    (let lib0 : Lib := fun _ => none
     let s1 := (add_symbol lib0 0 (EngineState.init 200 1 300) 1 0 [0]).1
     let s2 := (add_symbol lib0 0 s1 2 0 [0]).1
     s2.images.length = 2 ∧ s2.max_pending = 1) := by
  decide

/-- C6 (amended): only `add_metadata` enforces the capacity bound: when it
creates a reconstruction for a new image id while the engine is at or above
`max_pending` (after the timeout sweep), the active entry with the oldest
`first_received` is evicted and classified TIMEOUT, keeping the active count
unchanged; placeholder reconstructions created by `add_symbol` bypass the
bound. -/
theorem C6_capacity_amended (lib : Lib) (now : Nat) (s : EngineState)
    (m : ImageMetadata)
    (hmp : 0 < s.max_pending)
    (hnc : dictMem s.completed m.image_id = false)
    (hni : dictGet s.images m.image_id = none)
    (hcap : s.max_pending ≤ (cleanupTimeout now s).images.length) :
    ∃ oldest_id orec,
      oldestEntry (cleanupTimeout now s).images = some (oldest_id, orec)
      ∧ (add_metadata lib now s m).2 = true
      ∧ (add_metadata lib now s m).1.images.length
          = (cleanupTimeout now s).images.length
      ∧ (oldest_id, ImageStatus.TIMEOUT) ∈ (add_metadata lib now s m).1.removals
      ∧ dictMem (add_metadata lib now s m).1.images m.image_id = true := by
  have hne : (cleanupTimeout now s).images ≠ [] := by
    intro he
    rw [he] at hcap
    simp at hcap
    omega
  obtain ⟨e, ho⟩ := Option.isSome_iff_exists.mp (oldestEntry_isSome hne)
  obtain ⟨oid, orec⟩ := e
  have homem : dictMem (cleanupTimeout now s).images oid = true :=
    mem_dictMem (oldestEntry_mem ho)
  have hnm : dictGet (cleanupTimeout now s).images m.image_id = none :=
    cleanupTimeout_get_none hni
  have hri := @removeImage_of_mem (cleanupTimeout now s) oid
    ImageStatus.TIMEOUT homem
  have hcap' : (cleanupTimeout now s).max_pending
      ≤ (cleanupTimeout now s).images.length := by
    rw [cleanupTimeout_max_pending]
    exact hcap
  have hadd : add_metadata lib now s m
      = ({ removeImage (cleanupTimeout now s) oid ImageStatus.TIMEOUT with
            images := dictSet
              (removeImage (cleanupTimeout now s) oid ImageStatus.TIMEOUT).images
              m.image_id (ImageReconstruction.mk0 m),
            decoders := dictSet
              (removeImage (cleanupTimeout now s) oid
                ImageStatus.TIMEOUT).decoders
              m.image_id (RaptorQDecoder.init m.num_source_symbols m.symbol_size
                m.total_size) }, true) := by
    unfold add_metadata
    rw [if_neg (by rw [hnc]; simp)]
    simp only [hni]
    rw [if_pos hcap', ho]
  refine ⟨oid, orec, ho, ?_, ?_, ?_, ?_⟩
  · rw [hadd]
  · rw [hadd]
    simp only
    rw [hri.1, length_dictSet_of_not_mem (by
        simp only [dictMem]
        rw [dictGet_del_none hnm oid]
        rfl)]
    rw [← length_dictDel_of_mem homem]
  · rw [hadd]
    simp only
    rw [hri.2.1]
    simp
  · rw [hadd]
    simp only [dictMem]
    rw [dictGet_set_self]
    rfl

/-- C6 (witness): with `max_pending = 1` and one active image, a META for
new image id 2 evicts the oldest entry as TIMEOUT and keeps the count at 1. -/
theorem C6_capacity_witness :
    ∃ oldest_id orec,
      oldestEntry (cleanupTimeout 0 c6WitnessState).images
          = some (oldest_id, orec)
      ∧ (add_metadata (fun _ => none) 0 c6WitnessState
          ⟨2, 10, 2, 1, 0, 0, 0, 0, 0, 0⟩).2 = true
      ∧ (add_metadata (fun _ => none) 0 c6WitnessState
          ⟨2, 10, 2, 1, 0, 0, 0, 0, 0, 0⟩).1.images.length
          = (cleanupTimeout 0 c6WitnessState).images.length
      ∧ (oldest_id, ImageStatus.TIMEOUT)
          ∈ (add_metadata (fun _ => none) 0 c6WitnessState
              ⟨2, 10, 2, 1, 0, 0, 0, 0, 0, 0⟩).1.removals
      ∧ dictMem (add_metadata (fun _ => none) 0 c6WitnessState
          ⟨2, 10, 2, 1, 0, 0, 0, 0, 0, 0⟩).1.images 2 = true :=
  C6_capacity_amended (fun _ => none) 0 c6WitnessState
    ⟨2, 10, 2, 1, 0, 0, 0, 0, 0, 0⟩
    (by decide) (by decide) (by decide) (by decide)

/-- C9 (counterexample): feeding the same `(image_id, symbol_id, bytes)`
twice to an image with an installed decoder does not increment
`symbols_duplicate`: the counter is only touched when the image id is
already in the completed set, so after a genuine duplicate the counter is
still 0. -/
theorem C9_duplicate_counterexample :
    (let lib0 : Lib := fun _ => none
     let s1 := (add_metadata lib0 0 (EngineState.init 200 10 300)
        ⟨3, 2, 1, 2, 5, 0, 0, 0, 0, 0⟩).1
     let s2 := (add_symbol lib0 1 s1 3 0 [7]).1
     let r3 := add_symbol lib0 1 s2 3 0 [7]
     r3.1.symbols_duplicate = 0 ∧ r3.2 = none
       ∧ r3.1 = { s2 with symbols_received := s2.symbols_received + 1 }) := by
  decide

/-- C9 (amended): a duplicate `add_symbol` call is idempotent on the
reconstruction and decoder state — the second call returns None and leaves
everything unchanged except `symbols_received` — but `symbols_duplicate` is
incremented only when the image id is already in the completed set (where
the call is otherwise a no-op), not for duplicates of an in-progress
image. -/
theorem C9_duplicate_amended (lib : Lib) (now : Nat) (s : EngineState)
    (image_id symbol_id : Nat) (data : List Nat) :
    (dictMem s.completed image_id = true →
      add_symbol lib now s image_id symbol_id data
        = ({ s with
              symbols_received := s.symbols_received + 1,
              symbols_duplicate := s.symbols_duplicate + 1 }, none))
    ∧ (∀ image_rec decoder,
        dictMem s.completed image_id = false →
        dictGet s.images image_id = some image_rec →
        image_rec.metadata.last_received = now →
        dictGet image_rec.received_symbols symbol_id = some data →
        dictGet s.decoders image_id = some decoder →
        decoder.decoded_data = none →
        dictMem decoder.symbols symbol_id = true →
        add_symbol lib now s image_id symbol_id data
          = ({ s with symbols_received := s.symbols_received + 1 }, none)) := by
  constructor
  · intro h
    unfold add_symbol
    rw [if_pos (by rw [h])]
  · intro image_rec decoder hnc hrec hlast hsym hdec hnd hdup
    have hrec_eq :
        { image_rec with metadata :=
            { image_rec.metadata with last_received := now } } = image_rec := by
      obtain ⟨md, st, rs, dd⟩ := image_rec
      obtain ⟨a1, a2, a3, a4, a5, a6, a7, a8, a9, a10⟩ := md
      simp only at hlast
      simp [hlast]
    have hcomb : ({ metadata := { image_rec.metadata with last_received := now },
                    status := image_rec.status,
                    received_symbols := dictSet image_rec.received_symbols symbol_id data,
                    decoded_data := image_rec.decoded_data } : ImageReconstruction)
          = image_rec := by
      obtain ⟨md, st, rs, dd⟩ := image_rec
      obtain ⟨a1, a2, a3, a4, a5, a6, a7, a8, a9, a10⟩ := md
      simp only at hsym hlast ⊢
      rw [dictSet_eq_self hsym, ← hlast]
    have hra : RaptorQDecoder.add_symbol lib decoder symbol_id data
        = (decoder, false) := by
      unfold RaptorQDecoder.add_symbol
      rw [if_neg (by rw [hnd]; simp), if_pos (by rw [hdup])]
    unfold add_symbol
    rw [if_neg (by rw [hnc]; simp)]
    simp only [hrec]
    rw [hrec_eq]
    simp only [hdec, hra]
    rw [dictSet_eq_self hrec]
    rw [hcomb]
    rw [dictSet_eq_self hrec, dictSet_eq_self hdec]
    simp

/-- C9 (witness): instantiation of both parts of the amended statement on
concrete engine states. -/
theorem C9_duplicate_witness :
    (add_symbol (fun _ => none) 1
        ⟨200, 10, 300, [], [], [(3, ⟨⟨3, 2, 1, 2, 5, 0, 0, 0, 0, 0⟩,
            ImageStatus.RECEIVING, [], none⟩)], 100, 0, 0, 0, 0, [], []⟩
        3 0 [7]
      = ({ (⟨200, 10, 300, [], [], [(3, ⟨⟨3, 2, 1, 2, 5, 0, 0, 0, 0, 0⟩,
            ImageStatus.RECEIVING, [], none⟩)], 100, 0, 0, 0, 0, [], []⟩ :
            EngineState) with
            symbols_received := 1,
            symbols_duplicate := 1 }, none))
    ∧ (add_symbol (fun _ => none) 1
        ⟨200, 10, 300,
          [(3, ⟨⟨3, 2, 1, 2, 5, 0, 0, 0, 0, 1⟩, ImageStatus.RECEIVING,
              [(0, [7])], none⟩)],
          [(3, ⟨2, 1, 2, [(0, [7])], none, [[7]]⟩)], [], 100, 0, 0, 0, 0, [], []⟩
        3 0 [7]
      = ({ (⟨200, 10, 300,
            [(3, ⟨⟨3, 2, 1, 2, 5, 0, 0, 0, 0, 1⟩, ImageStatus.RECEIVING,
                [(0, [7])], none⟩)],
            [(3, ⟨2, 1, 2, [(0, [7])], none, [[7]]⟩)], [], 100, 0, 0, 0, 0,
              [], []⟩ : EngineState) with
          symbols_received := 1 }, none)) :=
  ⟨(C9_duplicate_amended (fun _ => none) 1 _ 3 0 [7]).1 (by decide),
   (C9_duplicate_amended (fun _ => none) 1 _ 3 0 [7]).2
     ⟨⟨3, 2, 1, 2, 5, 0, 0, 0, 0, 1⟩, ImageStatus.RECEIVING, [(0, [7])], none⟩
     ⟨2, 1, 2, [(0, [7])], none, [[7]]⟩ (by decide)
     (by decide) (by decide) (by decide) (by decide) (by decide) (by decide)⟩

/-- C3 (code_bug): `LTEncoder.__init__` assigns
`self.seed = seed or random.randint(0, 2**32 - 1)`; Python's `or` treats the
requested seed 0 as falsy, so with `base_seed = 0` the effective seed is the
ambient random draw, not 0: two encoders constructed with seed 0 (ambient
draws 17 and 42) disagree on the per-symbol RNG seed `self.seed + t`, while
a nonzero requested seed (12345) is preserved. -/
theorem C3_seed_zero_code_bug :
    LTEncoder.effectiveSeed (some 0) 17 ≠ LTEncoder.effectiveSeed (some 0) 42
    ∧ LTEncoder.symbolRngSeed (LTEncoder.effectiveSeed (some 0) 17) 0
        ≠ LTEncoder.symbolRngSeed (LTEncoder.effectiveSeed (some 0) 42) 0
    ∧ LTEncoder.effectiveSeed (some 12345) 17
        = LTEncoder.effectiveSeed (some 12345) 42 := by
  decide

/-- C4 (counterexample): in the claimed run (fresh scheduler,
`telemetry_interval = 10`, `image_meta_interval = 100`, no priority packets,
one queued image so that image data is always available), call 1 promotes the
queued image and returns an IMAGE_META frame — and 1 is not a multiple of
100.  The `packet_counter % image_meta_interval` branch itself is dead under
these intervals, because every multiple of 100 is a multiple of 10 and is
claimed by the telemetry branch first. -/
theorem C4_schedule_counterexample :
    (get_next_packet (((SchedState.init 10 100).queue_image 1 20000).1)).2
        = Frame.imageMeta 1
    ∧ ¬ (100 ∣ 1) := by decide

/-- C4 (amended): across 10 000 `next_packet` calls with
`telemetry_interval = 10` and `image_meta_interval = 100`, no priority
packets, and one queued image large enough never to exhaust, exactly 1 000
frames are TELEMETRY and 8 999 are IMAGE_DATA; exactly one IMAGE_META frame
is emitted, at call 1 where the image is promoted to active (never at a
multiple of 100, since those calls are multiples of 10 and return
TELEMETRY). -/
theorem C4_schedule_amended :
    schedRunCounts (((SchedState.init 10 100).queue_image 1 20000).1) 10000
        = (1000, 1, 8999)
    ∧ (get_next_packet (((SchedState.init 10 100).queue_image 1 20000).1)).2
        = Frame.imageMeta 1 := by
  constructor
  · have h := schedRunCounts_run 9999 (by omega)
    norm_num at h
    exact h
  · decide

/-- C10: within one scheduler run from a fresh `PacketScheduler`, no
IMAGE_DATA frame for an image id is ever emitted before an IMAGE_META frame
for the same image id: promotion of a queued image emits its IMAGE_META as
the image's first frame. -/
theorem C10_meta_before_data (telemetry_interval image_meta_interval : Nat)
    (ops : List SchedOp) (idx i sid : Nat)
    (h : (runSched (SchedState.init telemetry_interval image_meta_interval)
            ops).get? idx = some (Frame.imageData i sid)) :
    ∃ j, j < idx ∧
      (runSched (SchedState.init telemetry_interval image_meta_interval)
          ops).get? j = some (Frame.imageMeta i) := by
  rcases runSched_data_meta ops
      (SchedState.init telemetry_interval image_meta_interval) idx i sid h with
    hl | ⟨img, hcur, hid⟩
  · exact hl
  · exact absurd hcur (by simp [SchedState.init])

/-- C10 (witness): queue one image and pump two frames; the IMAGE_DATA frame
at position 1 is preceded by the image's IMAGE_META at position 0. -/
theorem C10_meta_before_data_witness :
    ∃ j, j < 1 ∧
      (runSched (SchedState.init 10 100)
          [SchedOp.queueImage 4 9, SchedOp.next, SchedOp.next]).get? j
        = some (Frame.imageMeta 4) :=
  C10_meta_before_data 10 100
    [SchedOp.queueImage 4 9, SchedOp.next, SchedOp.next] 1 4 0 (by decide)

end RaptorHAB
